import Mathlib

/-! Verification of the student attendance tracker (`student_attendance.py`).

The development shallowly embeds the source: Python strings are lists of
unicode scalar values (`Str`), the casing and whitespace primitives model the
ASCII fragment exactly as the source relies on it, records are structures
with the four string fields, and the store is a structure holding the
in-memory record list together with the backing file, modelled at the JSON
value level (`Option Json`, where `none` stands for file text that is not
valid JSON). Fallible operations return `Except`.  Theorems about the
embedded definitions follow the definitions. -/

/-- Python strings, modelled as lists of unicode scalar values. -/
abbrev Str := List Char

/-- Shorthand turning a Lean string literal into the `Str` model. -/
def toL (s : String) : Str := s.toList

/-- Whitespace test used by Python `str.strip` (ASCII fragment:
space, tab, newline, vertical tab, form feed, carriage return). -/
def pyIsSpace (c : Char) : Bool := decide (c.toNat = 32 ∨ (9 ≤ c.toNat ∧ c.toNat ≤ 13))

/-- ASCII upper-case letter test. -/
def pyIsUpper (c : Char) : Bool := decide (65 ≤ c.toNat ∧ c.toNat ≤ 90)

/-- ASCII lower-case letter test. -/
def pyIsLower (c : Char) : Bool := decide (97 ≤ c.toNat ∧ c.toNat ≤ 122)

/-- Cased-character test used by `str.title` (ASCII fragment). -/
def pyIsAlpha (c : Char) : Bool :=
  decide ((65 ≤ c.toNat ∧ c.toNat ≤ 90) ∨ (97 ≤ c.toNat ∧ c.toNat ≤ 122))

/-- ASCII digit test. -/
def pyIsDigit (c : Char) : Bool := decide (48 ≤ c.toNat ∧ c.toNat ≤ 57)

/-- Python `str.lower` on one character (ASCII fragment). -/
def pyToLower (c : Char) : Char :=
  if pyIsUpper c then Char.ofNat (c.toNat + 32) else c

/-- Python `str.upper` on one character (ASCII fragment). -/
def pyToUpper (c : Char) : Char :=
  if pyIsLower c then Char.ofNat (c.toNat - 32) else c

/-- Python `str.lower` (ASCII fragment). -/
def pyLower (l : Str) : Str := l.map pyToLower

/-- Right-strip: drop trailing whitespace, as the trailing half of
Python `str.strip`. -/
def pyRstrip : Str → Str
  | [] => []
  | c :: cs =>
    let r := pyRstrip cs
    if r = [] then (if pyIsSpace c then [] else [c]) else c :: r

/-- Python `str.strip`: drop leading and trailing whitespace. -/
def pyStrip (l : Str) : Str := pyRstrip (l.dropWhile pyIsSpace)

/-- One character of Python `str.title`: a cased character is upper-cased
after a non-cased character and lower-cased after a cased one. -/
def titleChar (prevCased : Bool) (c : Char) : Char :=
  if pyIsAlpha c then (if prevCased then pyToLower c else pyToUpper c) else c

/-- Worker for Python `str.title`, carrying whether the previous character
was cased. -/
def pyTitleAux : Bool → Str → Str
  | _, [] => []
  | prev, c :: cs => titleChar prev c :: pyTitleAux (pyIsAlpha c) cs

/-- Python `str.title` (ASCII fragment). -/
def pyTitle (l : Str) : Str := pyTitleAux false l

/-- Python `str.capitalize`: first character upper-cased, the rest
lower-cased. -/
def pyCapitalize : Str → Str
  | [] => []
  | c :: cs => pyToUpper c :: cs.map pyToLower

/-- One attendance entry: the four string fields of the Python dataclass
`AttendanceRecord`. -/
structure AttendanceRecord where
  student_name : Str
  date : Str
  status : Str
  remarks : Str
deriving DecidableEq

/-- The module-level list `VALID_STATUSES` of the source. -/
def VALID_STATUSES : List Str := [toL "Present", toL "Absent", toL "Late"]

/-- `AttendanceRecord.clean` of the source: trim all fields, title-case the
student name, capitalize the status. -/
def clean (r : AttendanceRecord) : AttendanceRecord :=
  { student_name := pyTitle (pyStrip r.student_name)
    status := pyCapitalize (pyStrip r.status)
    date := pyStrip r.date
    remarks := pyStrip r.remarks }

/-- The distinct validation and insertion failures of the error taxonomy. -/
inductive VError where
  | invalidDate
  | invalidStatus
  | missingRemarks
  | emptyName
  | duplicateRecord
deriving DecidableEq

/-- The month field of CPython `strptime` format `%m`: regular expression
`1[0-2]|0[1-9]|[1-9]`, alternatives tried left to right, returning the
value and the unconsumed rest. -/
def parseMonthPart : Str → Option (Nat × Str)
  | c1 :: c2 :: rest =>
    if c1 = '1' ∧ (c2 = '0' ∨ c2 = '1' ∨ c2 = '2') then some (10 + (c2.toNat - 48), rest)
    else if c1 = '0' ∧ 49 ≤ c2.toNat ∧ c2.toNat ≤ 57 then some (c2.toNat - 48, rest)
    else if 49 ≤ c1.toNat ∧ c1.toNat ≤ 57 then some (c1.toNat - 48, c2 :: rest)
    else none
  | [c1] => if 49 ≤ c1.toNat ∧ c1.toNat ≤ 57 then some (c1.toNat - 48, []) else none
  | [] => none

/-- The day field of CPython `strptime` format `%d`: regular expression
`3[01]|[12]\d|0[1-9]|[1-9]`. -/
def parseDayPart : Str → Option (Nat × Str)
  | c1 :: c2 :: rest =>
    if c1 = '3' ∧ (c2 = '0' ∨ c2 = '1') then some (30 + (c2.toNat - 48), rest)
    else if (c1 = '1' ∨ c1 = '2') ∧ pyIsDigit c2 then
      some (10 * (c1.toNat - 48) + (c2.toNat - 48), rest)
    else if c1 = '0' ∧ 49 ≤ c2.toNat ∧ c2.toNat ≤ 57 then some (c2.toNat - 48, rest)
    else if 49 ≤ c1.toNat ∧ c1.toNat ≤ 57 then some (c1.toNat - 48, c2 :: rest)
    else none
  | [c1] => if 49 ≤ c1.toNat ∧ c1.toNat ≤ 57 then some (c1.toNat - 48, []) else none
  | [] => none

/-- Gregorian leap year rule used by `datetime.date`. -/
def isLeapYear (y : Nat) : Bool := decide (y % 4 = 0 ∧ (y % 100 ≠ 0 ∨ y % 400 = 0))

/-- Number of days of a month, as enforced by the `datetime.date`
constructor. -/
def daysInMonth (y m : Nat) : Nat :=
  if m = 2 then (if isLeapYear y then 29 else 28)
  else if m = 4 ∨ m = 6 ∨ m = 9 ∨ m = 11 then 30 else 31

/-- `datetime.strptime(s, "%Y-%m-%d").date()` of the source: four year
digits, a dash, the `%m` field, a dash, the `%d` field, nothing left over,
and a valid calendar date (`datetime.date` also rejects year 0). Returns
`(year, month, day)` on success. -/
def parseDate : Str → Option (Nat × Nat × Nat)
  | y1 :: y2 :: y3 :: y4 :: '-' :: rest =>
    if pyIsDigit y1 ∧ pyIsDigit y2 ∧ pyIsDigit y3 ∧ pyIsDigit y4 then
      let y := 1000 * (y1.toNat - 48) + 100 * (y2.toNat - 48) + 10 * (y3.toNat - 48)
        + (y4.toNat - 48)
      match parseMonthPart rest with
      | some (m, sep :: rest2) =>
        if sep = '-' then
          match parseDayPart rest2 with
          | some (d, []) => if 1 ≤ y ∧ d ≤ daysInMonth y m then some (y, m, d) else none
          | _ => none
        else none
      | _ => none
    else none
  | _ => none

/-- `AttendanceRecord.validate` of the source: normalize via `clean`, then
check date format, status membership, absent-requires-remarks and
name-non-empty in that order, raising on the first failure; on success the
record holds the cleaned fields. -/
def validate (r : AttendanceRecord) : Except VError AttendanceRecord :=
  let c := clean r
  match parseDate c.date with
  | none => .error .invalidDate
  | some _ =>
    if c.status ∉ VALID_STATUSES then .error .invalidStatus
    else if c.status = toL "Absent" ∧ c.remarks = [] then .error .missingRemarks
    else if c.student_name = [] then .error .emptyName
    else .ok c

instance {ε α : Type} [DecidableEq ε] [DecidableEq α] : DecidableEq (Except ε α) := fun a b =>
  match a, b with
  | .ok x, .ok y =>
    if h : x = y then isTrue (by rw [h]) else isFalse (by intro hc; cases hc; exact h rfl)
  | .error x, .error y =>
    if h : x = y then isTrue (by rw [h]) else isFalse (by intro hc; cases hc; exact h rfl)
  | .ok _, .error _ => isFalse (by intro hc; cases hc)
  | .error _, .ok _ => isFalse (by intro hc; cases hc)

/-- JSON values, the level at which the backing file is modelled: the
source only ever exchanges JSON values with the standard library
(`json.dump` / `json.load`), so the text grammar itself stays outside the
embedding. -/
inductive Json where
  | null
  | bool (b : Bool)
  | num (n : Int)
  | str (s : Str)
  | arr (elems : List Json)
  | obj (fields : List (Str × Json))

/-- `rec.__dict__` as serialized by `json.dump`: one object with the four
keys in dataclass field order. -/
def encodeRecord (r : AttendanceRecord) : Json :=
  .obj [(toL "student_name", .str r.student_name), (toL "date", .str r.date),
        (toL "status", .str r.status), (toL "remarks", .str r.remarks)]

/-- The whole in-memory sequence as the JSON array written by
`AttendanceDB._save`. -/
def encodeRecords (rs : List AttendanceRecord) : Json := .arr (rs.map encodeRecord)

/-- JSON object key lookup (first match), as Python dict subscription on
parsed objects. -/
def jlookup : List (Str × Json) → Str → Option Json
  | [], _ => none
  | (k, v) :: rest, key => if k = key then some v else jlookup rest key

/-- Extract a JSON string value. -/
def jstr : Option Json → Option Str
  | some (.str s) => some s
  | _ => none

/-- Read one record object back from JSON: the four keys must be present
with string values (extra keys are ignored, as Python dict access would). -/
def decodeRecord : Json → Option AttendanceRecord
  | .obj fields =>
    match jstr (jlookup fields (toL "student_name")), jstr (jlookup fields (toL "date")),
          jstr (jlookup fields (toL "status")), jstr (jlookup fields (toL "remarks")) with
    | some n, some d, some s, some m => some ⟨n, d, s, m⟩
    | _, _, _, _ => none
  | _ => none

/-- Read a list of record objects. -/
def decodeRecordList : List Json → Option (List AttendanceRecord)
  | [] => some []
  | j :: js =>
    match decodeRecord j, decodeRecordList js with
    | some r, some rs => some (r :: rs)
    | _, _ => none

/-- Read the whole backing array. -/
def decodeRecords : Json → Option (List AttendanceRecord)
  | .arr es => decodeRecordList es
  | _ => none

/-- The store `AttendanceDB`: the in-memory record list and the backing
file, modelled at the JSON value level. `file = none` stands for file text
that is not valid JSON (`json.load` raises `JSONDecodeError` on it);
`file = some j` stands for text parsing to the value `j`. -/
structure AttendanceDB where
  data : List AttendanceRecord
  file : Option Json

/-- `AttendanceDB._load`: parse the backing file, returning the empty
collection when the text is not valid JSON (the `except JSONDecodeError`
branch). Well-formed values decode to their record list; the typed model
also maps a valid JSON value of any other shape to the empty list, a case
outside every claim (Python would keep the raw value). -/
def load_file (file : Option Json) : List AttendanceRecord :=
  match file with
  | none => []
  | some j =>
    match decodeRecords j with
    | some rs => rs
    | none => []

/-- `AttendanceDB._save`: rewrite the backing file with the whole
in-memory sequence. -/
def save_file (db : AttendanceDB) : AttendanceDB :=
  { db with file := some (encodeRecords db.data) }

/-- `AttendanceDB.add_record`: validate, scan the current data for a
duplicate `(lower-cased name, date)` pair, then append the cleaned record
and save. The returned pair is the raised-or-returned outcome together
with the store state after the call. -/
def add_record (db : AttendanceDB) (rec : AttendanceRecord) :
    Except VError Unit × AttendanceDB :=
  match validate rec with
  | .error e => (.error e, db)
  | .ok rec1 =>
    if db.data.any (fun r =>
        decide (pyLower r.student_name = pyLower rec1.student_name) && decide (r.date = rec1.date))
    then (.error .duplicateRecord, db)
    else
      let db1 := { db with data := db.data ++ [rec1] }
      (.ok (), save_file db1)

/-- Python string comparison `a <= b`: lexicographic on code points. -/
def strLE : Str → Str → Bool
  | [], _ => true
  | _ :: _, [] => false
  | a :: as, b :: bs =>
    if a.toNat < b.toNat then true
    else if b.toNat < a.toNat then false
    else strLE as bs

/-- `AttendanceDB.list_records`: three successive truthiness-guarded
filter passes over the data (a `None` or empty-string argument skips its
pass, as Python `if student_name:` does). -/
def list_records (db : AttendanceDB) (student_name date_from date_to : Option Str) :
    List AttendanceRecord :=
  let records := db.data
  let records := match student_name with
    | none => records
    | some q =>
      if q = [] then records
      else records.filter (fun r => decide (pyLower r.student_name = pyLower (pyStrip q)))
  let records := match date_from with
    | none => records
    | some q => if q = [] then records else records.filter (fun r => strLE q r.date)
  let records := match date_to with
    | none => records
    | some q => if q = [] then records else records.filter (fun r => strLE r.date q)
  records

/-- Round half to even on exact rationals: the model of Python float
`round`. The source computes `present / total * 100` in floating point;
the embedding idealizes this as exact rational arithmetic. -/
def roundHalfEven (q : ℚ) : ℤ :=
  let f := ⌊q⌋
  if q - f < 1 / 2 then f
  else if 1 / 2 < q - f then f + 1
  else if f % 2 = 0 then f else f + 1

/-- Python `round(x, 2)` in the rational idealization. -/
def round2 (q : ℚ) : ℚ := (roundHalfEven (q * 100) : ℚ) / 100

/-- `AttendanceDB.student_monthly_percentage`: scan the data collecting
records whose lowered name equals the stripped-and-lowered query and whose
parsable date lies in the given year and month (unparsable dates are
skipped by the `except` branch), then count, count `"Present"` entries and
guard the percentage against a zero total. -/
def student_monthly_percentage (db : AttendanceDB) (student_name : Str) (year month : Nat) :
    Nat × Nat × ℚ :=
  let s := pyLower (pyStrip student_name)
  let chosen := db.data.foldl (fun acc r =>
    if pyLower r.student_name ≠ s then acc
    else match parseDate r.date with
      | none => acc
      | some (y, m, _) => if y = year ∧ m = month then acc ++ [r] else acc) []
  let total := chosen.length
  let present := chosen.foldl (fun n r => if r.status = toL "Present" then n + 1 else n) (0 : Nat)
  let pct := if total ≠ 0 then round2 ((present : ℚ) / (total : ℚ) * 100) else 0
  (total, present, pct)

/-- The validation sequence exactly as the specification words it:
normalization first, then date format, status membership,
absent-requires-remarks, name non-empty, first failure reported. Stated
from the spec text, to be compared with `validate` from the source. -/
def specOrderedValidate (r : AttendanceRecord) : Except VError AttendanceRecord :=
  let c := clean r
  if (parseDate c.date).isNone then .error .invalidDate
  else if c.status ∉ VALID_STATUSES then .error .invalidStatus
  else if c.status = toL "Absent" ∧ c.remarks = [] then .error .missingRemarks
  else if c.student_name = [] then .error .emptyName
  else .ok c

/-- Status equal to the exact string `"Present"`, the count condition of
the monthly report. -/
def recIsPresent (r : AttendanceRecord) : Bool := decide (r.status = toL "Present")

/-- Selection predicate of the monthly report: lowered stored name equals
`s` and the date parses into the given year and month. -/
def monthPred (s : Str) (year month : Nat) (r : AttendanceRecord) : Bool :=
  decide (pyLower r.student_name = s) &&
    (match parseDate r.date with
     | none => false
     | some (y, m, _) => decide (y = year ∧ m = month))

/-- The name filter of `list_records` as the code applies it: skipped when
absent or empty, otherwise case-insensitive match against the trimmed
query. -/
def nameMatches (q : Option Str) (r : AttendanceRecord) : Bool :=
  match q with
  | none => true
  | some s => if s = [] then true else decide (pyLower r.student_name = pyLower (pyStrip s))

/-- The lower date bound of `list_records`: skipped when absent or empty,
otherwise `date_from <= r.date` lexicographically. -/
def fromMatches (q : Option Str) (r : AttendanceRecord) : Bool :=
  match q with
  | none => true
  | some s => if s = [] then true else strLE s r.date

/-- The upper date bound of `list_records`: skipped when absent or empty,
otherwise `r.date <= date_to` lexicographically. -/
def toMatches (q : Option Str) (r : AttendanceRecord) : Bool :=
  match q with
  | none => true
  | some s => if s = [] then true else strLE r.date s

/-- Case-insensitive exact match of a stored name against the supplied
filter value, word for word as the claim about `list_records` states it
(no trimming of the query). -/
def specNameExact (r : AttendanceRecord) (q : Str) : Bool :=
  decide (pyLower r.student_name = pyLower q)

/-- A raw add attempt before normalization. -/
def recJohnRaw : AttendanceRecord := ⟨toL "john doe", toL "2025-08-24", toL "present", toL ""⟩

/-- The stored form of `recJohnRaw` after normalization. -/
def recJohn : AttendanceRecord := ⟨toL "John Doe", toL "2025-08-24", toL "Present", toL ""⟩

/-- A freshly initialized store: no records, file holding the empty array. -/
def dbEmpty : AttendanceDB := ⟨[], some (Json.arr [])⟩

/-- The store after adding `recJohnRaw` to `dbEmpty`. -/
def dbJohn : AttendanceDB := ⟨[recJohn], some (encodeRecords [recJohn])⟩

/-- A second attempt for the same student and date with an invalid status. -/
def recBadStatus : AttendanceRecord := ⟨toL "john doe ", toL "2025-08-24", toL "Sleeping", toL "x"⟩

/-- A second attempt for the same student and date that itself passes
validation (different casing, status and remarks). -/
def recJohnAbsentRaw : AttendanceRecord :=
  ⟨toL "JOHN DOE", toL "2025-08-24", toL "absent", toL "sick"⟩

/-- The stored form of `recJohnAbsentRaw` after normalization. -/
def recJohnAbsent : AttendanceRecord :=
  ⟨toL "John Doe", toL "2025-08-24", toL "Absent", toL "sick"⟩

/-- An attempt whose date cannot parse. -/
def recBadDate : AttendanceRecord := ⟨toL "Ann", toL "2025/08/24", toL "Late", toL ""⟩

/-- A messy raw record whose normalization touches every field. -/
def recMessy : AttendanceRecord :=
  ⟨toL "  john doe ", toL " 2025-08-24 ", toL " present", toL ""⟩

/-- A record as it could sit in a hand-edited backing file: lower-case
status `"present"`, never revalidated on load. -/
def recLowerPresent : AttendanceRecord :=
  ⟨toL "John Doe", toL "2025-08-24", toL "present", toL ""⟩

/-- A store holding only `recLowerPresent`. -/
def dbLower : AttendanceDB := ⟨[recLowerPresent], none⟩

theorem toNat_ofNat_small (n : Nat) (h : n < 55296) : (Char.ofNat n).toNat = n := by
  have hv : n.isValidChar := Or.inl h
  unfold Char.ofNat
  rw [dif_pos hv]
  unfold Char.ofNatAux Char.toNat
  simp [UInt32.toNat, BitVec.toNat_ofNatLt]

theorem toNat_pyToLower (c : Char) :
    (pyToLower c).toNat = if 65 ≤ c.toNat ∧ c.toNat ≤ 90 then c.toNat + 32 else c.toNat := by
  unfold pyToLower pyIsUpper
  split
  · next h =>
    have hb := of_decide_eq_true h
    rw [toNat_ofNat_small _ (by omega), if_pos hb]
  · next h =>
    simp only [decide_eq_true_eq] at h
    rw [if_neg h]

theorem toNat_pyToUpper (c : Char) :
    (pyToUpper c).toNat = if 97 ≤ c.toNat ∧ c.toNat ≤ 122 then c.toNat - 32 else c.toNat := by
  unfold pyToUpper pyIsLower
  split
  · next h =>
    have hb := of_decide_eq_true h
    rw [toNat_ofNat_small _ (by omega), if_pos hb]
  · next h =>
    simp only [decide_eq_true_eq] at h
    rw [if_neg h]

theorem pyIsUpper_pyToLower (c : Char) : pyIsUpper (pyToLower c) = false := by
  unfold pyIsUpper
  rw [toNat_pyToLower]
  split <;> (simp only [decide_eq_false_iff_not]; omega)

theorem pyIsLower_pyToUpper (c : Char) : pyIsLower (pyToUpper c) = false := by
  unfold pyIsLower
  rw [toNat_pyToUpper]
  split <;> (simp only [decide_eq_false_iff_not]; omega)

theorem pyIsAlpha_pyToLower (c : Char) : pyIsAlpha (pyToLower c) = pyIsAlpha c := by
  unfold pyIsAlpha
  rw [toNat_pyToLower]
  split
  · exact decide_eq_decide.mpr (by omega)
  · rfl

theorem pyIsAlpha_pyToUpper (c : Char) : pyIsAlpha (pyToUpper c) = pyIsAlpha c := by
  unfold pyIsAlpha
  rw [toNat_pyToUpper]
  split
  · exact decide_eq_decide.mpr (by omega)
  · rfl

theorem pyIsSpace_pyToLower (c : Char) : pyIsSpace (pyToLower c) = pyIsSpace c := by
  unfold pyIsSpace
  rw [toNat_pyToLower]
  split
  · exact decide_eq_decide.mpr (by omega)
  · rfl

theorem pyIsSpace_pyToUpper (c : Char) : pyIsSpace (pyToUpper c) = pyIsSpace c := by
  unfold pyIsSpace
  rw [toNat_pyToUpper]
  split
  · exact decide_eq_decide.mpr (by omega)
  · rfl

theorem pyToLower_of_notUpper (c : Char) (h : pyIsUpper c = false) : pyToLower c = c := by
  unfold pyToLower
  rw [h]
  rfl

theorem pyToUpper_of_notLower (c : Char) (h : pyIsLower c = false) : pyToUpper c = c := by
  unfold pyToUpper
  rw [h]
  rfl

theorem pyToLower_pyToLower (c : Char) : pyToLower (pyToLower c) = pyToLower c :=
  pyToLower_of_notUpper _ (pyIsUpper_pyToLower c)

theorem pyToUpper_pyToUpper (c : Char) : pyToUpper (pyToUpper c) = pyToUpper c :=
  pyToUpper_of_notLower _ (pyIsLower_pyToUpper c)

theorem pyIsAlpha_titleChar (b : Bool) (c : Char) : pyIsAlpha (titleChar b c) = pyIsAlpha c := by
  unfold titleChar
  split
  · cases b
    · simpa using pyIsAlpha_pyToUpper c
    · simpa using pyIsAlpha_pyToLower c
  · rfl

theorem pyIsSpace_titleChar (b : Bool) (c : Char) : pyIsSpace (titleChar b c) = pyIsSpace c := by
  unfold titleChar
  split
  · cases b
    · simpa using pyIsSpace_pyToUpper c
    · simpa using pyIsSpace_pyToLower c
  · rfl

theorem titleChar_titleChar (b : Bool) (c : Char) :
    titleChar b (titleChar b c) = titleChar b c := by
  by_cases h : pyIsAlpha c = true
  · cases b
    · have h1 : titleChar false c = pyToUpper c := by
        unfold titleChar; rw [if_pos h]; rfl
      rw [h1]
      have h2 : pyIsAlpha (pyToUpper c) = true := by rw [pyIsAlpha_pyToUpper]; exact h
      unfold titleChar
      rw [if_pos h2]
      exact pyToUpper_pyToUpper c
    · have h1 : titleChar true c = pyToLower c := by
        unfold titleChar; rw [if_pos h]; rfl
      rw [h1]
      have h2 : pyIsAlpha (pyToLower c) = true := by rw [pyIsAlpha_pyToLower]; exact h
      unfold titleChar
      rw [if_pos h2]
      exact pyToLower_pyToLower c
  · have h1 : titleChar b c = c := by unfold titleChar; rw [if_neg h]
    rw [h1, h1]

theorem pyTitleAux_idem (l : Str) : ∀ b, pyTitleAux b (pyTitleAux b l) = pyTitleAux b l := by
  induction l with
  | nil => intro b; rfl
  | cons c cs ih =>
    intro b
    show pyTitleAux b (titleChar b c :: pyTitleAux (pyIsAlpha c) cs) = _
    show titleChar b (titleChar b c) :: pyTitleAux (pyIsAlpha (titleChar b c)) (pyTitleAux (pyIsAlpha c) cs) = _
    rw [titleChar_titleChar, pyIsAlpha_titleChar, ih]
    rfl

theorem map_pyIsSpace_pyTitleAux (l : Str) :
    ∀ b, (pyTitleAux b l).map pyIsSpace = l.map pyIsSpace := by
  induction l with
  | nil => intro b; rfl
  | cons c cs ih =>
    intro b
    show pyIsSpace (titleChar b c) :: (pyTitleAux (pyIsAlpha c) cs).map pyIsSpace = _
    rw [pyIsSpace_titleChar, ih]
    rfl

theorem map_pyToLower_map_pyToLower (l : Str) :
    (l.map pyToLower).map pyToLower = l.map pyToLower := by
  induction l with
  | nil => rfl
  | cons c cs ih =>
    show pyToLower (pyToLower c) :: _ = _
    rw [pyToLower_pyToLower, ih]
    rfl

theorem map_pyIsSpace_map_pyToLower (l : Str) :
    (l.map pyToLower).map pyIsSpace = l.map pyIsSpace := by
  induction l with
  | nil => rfl
  | cons c cs ih =>
    show pyIsSpace (pyToLower c) :: _ = _
    rw [pyIsSpace_pyToLower, ih]
    rfl

theorem map_pyIsSpace_pyCapitalize (l : Str) :
    (pyCapitalize l).map pyIsSpace = l.map pyIsSpace := by
  cases l with
  | nil => rfl
  | cons c cs =>
    show pyIsSpace (pyToUpper c) :: (cs.map pyToLower).map pyIsSpace = _
    rw [pyIsSpace_pyToUpper, map_pyIsSpace_map_pyToLower]
    rfl

theorem pyCapitalize_pyCapitalize (l : Str) :
    pyCapitalize (pyCapitalize l) = pyCapitalize l := by
  cases l with
  | nil => rfl
  | cons c cs =>
    show pyToUpper (pyToUpper c) :: (cs.map pyToLower).map pyToLower = _
    rw [pyToUpper_pyToUpper, map_pyToLower_map_pyToLower]
    rfl

theorem length_dropWhile_le' (p : Char → Bool) (l : Str) :
    (l.dropWhile p).length ≤ l.length := by
  induction l with
  | nil => exact Nat.le_refl _
  | cons a as ih =>
    rw [List.dropWhile_cons]
    split
    · exact Nat.le_trans ih (Nat.le_succ _)
    · exact Nat.le_refl _

theorem dropWhile_dropWhile_self (p : Char → Bool) (l : Str) :
    (l.dropWhile p).dropWhile p = l.dropWhile p := by
  induction l with
  | nil => rfl
  | cons a as ih =>
    rw [List.dropWhile_cons]
    split
    · exact ih
    · next h => rw [List.dropWhile_cons, if_neg h]

theorem head_false_of_dropWhile_eq_self (p : Char → Bool) (a : Char) (l : Str)
    (h : (a :: l).dropWhile p = a :: l) : p a = false := by
  by_cases hp : p a = true
  · rw [List.dropWhile_cons, if_pos hp] at h
    have hle := length_dropWhile_le' p l
    rw [h] at hle
    simp at hle
  · exact Bool.not_eq_true _ |>.mp hp

theorem dropWhile_eq_self_of_head_false (p : Char → Bool) (a : Char) (l : Str)
    (h : p a = false) : (a :: l).dropWhile p = a :: l := by
  rw [List.dropWhile_cons, if_neg (by simp [h])]

theorem pyRstrip_cons (a : Char) (as : Str) :
    pyRstrip (a :: as) =
      if pyRstrip as = [] then (if pyIsSpace a then [] else [a]) else a :: pyRstrip as := rfl

theorem pyRstrip_pyRstrip (l : Str) : pyRstrip (pyRstrip l) = pyRstrip l := by
  induction l with
  | nil => rfl
  | cons a as ih =>
    rw [pyRstrip_cons]
    by_cases h : pyRstrip as = []
    · rw [if_pos h]
      by_cases hs : pyIsSpace a = true
      · rw [if_pos hs]
        rfl
      · rw [if_neg hs, pyRstrip_cons]
        simp [show pyRstrip ([] : Str) = [] from rfl, hs]
    · rw [if_neg h, pyRstrip_cons, ih, if_neg h]

theorem head?_pyRstrip (l : Str) : pyRstrip l = [] ∨ (pyRstrip l).head? = l.head? := by
  cases l with
  | nil => exact Or.inl rfl
  | cons a as =>
    show pyRstrip (a :: as) = [] ∨ (pyRstrip (a :: as)).head? = some a
    show (if pyRstrip as = [] then (if pyIsSpace a then [] else [a]) else a :: pyRstrip as) = [] ∨ _
    by_cases h : pyRstrip as = []
    · rw [if_pos h]
      by_cases hs : pyIsSpace a = true
      · rw [if_pos hs]; exact Or.inl rfl
      · rw [if_neg hs]
        right
        show (if pyRstrip as = [] then (if pyIsSpace a then [] else [a]) else a :: pyRstrip as).head? = some a
        rw [if_pos h, if_neg hs]
        rfl
    · right
      show (if pyRstrip as = [] then (if pyIsSpace a then [] else [a]) else a :: pyRstrip as).head? = some a
      rw [if_neg h]
      rfl

theorem dropWhile_pyStrip (l : Str) : (pyStrip l).dropWhile pyIsSpace = pyStrip l := by
  unfold pyStrip
  have hA := dropWhile_dropWhile_self pyIsSpace l
  cases head?_pyRstrip (l.dropWhile pyIsSpace) with
  | inl h => rw [h]; rfl
  | inr h =>
    cases hc : l.dropWhile pyIsSpace with
    | nil => rfl
    | cons a as =>
      rw [hc] at h hA
      cases hr : pyRstrip (a :: as) with
      | nil => rfl
      | cons b bs =>
        rw [hr] at h
        have hb : b = a := by simpa using h
        subst hb
        exact dropWhile_eq_self_of_head_false _ _ _
          (head_false_of_dropWhile_eq_self _ _ _ hA)

theorem pyRstrip_pyStrip (l : Str) : pyRstrip (pyStrip l) = pyStrip l :=
  pyRstrip_pyRstrip _

theorem pyStrip_pyStrip (l : Str) : pyStrip (pyStrip l) = pyStrip l := by
  have h1 := dropWhile_pyStrip l
  show pyRstrip ((pyStrip l).dropWhile pyIsSpace) = pyStrip l
  rw [h1]
  exact pyRstrip_pyStrip l

theorem dropWhile_eq_self_transfer (p : Char → Bool) (l m : Str)
    (hp : l.map p = m.map p) (hl : l.dropWhile p = l) : m.dropWhile p = m := by
  cases l with
  | nil =>
    cases m with
    | nil => rfl
    | cons b bs => simp at hp
  | cons a as =>
    cases m with
    | nil => rfl
    | cons b bs =>
      have hab : p a = p b := by simpa using congrArg List.head? hp
      exact dropWhile_eq_self_of_head_false _ _ _
        (hab ▸ head_false_of_dropWhile_eq_self _ _ _ hl)

theorem pyRstrip_eq_self_transfer (l : Str) :
    ∀ m : Str, l.map pyIsSpace = m.map pyIsSpace → pyRstrip l = l → pyRstrip m = m := by
  induction l with
  | nil =>
    intro m hp _
    cases m with
    | nil => rfl
    | cons b bs => simp at hp
  | cons a as ih =>
    intro m hp hl
    cases m with
    | nil => simp at hp
    | cons b bs =>
      have hab : pyIsSpace a = pyIsSpace b := by simpa using congrArg List.head? hp
      have htail : as.map pyIsSpace = bs.map pyIsSpace := by simpa using congrArg List.tail hp
      show (if pyRstrip bs = [] then (if pyIsSpace b then [] else [b]) else b :: pyRstrip bs) = b :: bs
      have hl' : (if pyRstrip as = [] then (if pyIsSpace a then [] else [a]) else a :: pyRstrip as) = a :: as := hl
      by_cases h : pyRstrip as = []
      · rw [if_pos h] at hl'
        by_cases hs : pyIsSpace a = true
        · rw [if_pos hs] at hl'
          exact absurd hl' (by simp)
        · rw [if_neg hs] at hl'
          have has : as = [] := by simpa using hl'
          have hbs : bs = [] := by
            subst has
            simpa using htail.symm
          subst hbs
          have : pyRstrip ([] : Str) = [] := rfl
          rw [if_pos this, if_neg (by rw [← hab]; exact hs)]
      · rw [if_neg h] at hl'
        have htl : pyRstrip as = as := by simpa using hl'
        have hbs : pyRstrip bs = bs := ih bs htail htl
        have hasne : as ≠ [] := by
          intro hn
          exact h (by rw [hn]; rfl)
        have hbsne : bs ≠ [] := by
          intro hn
          subst hn
          simp at htail
          exact hasne htail
        rw [if_neg (by rw [hbs]; exact hbsne), hbs]

theorem pyStrip_pyTitle_pyStrip (x : Str) :
    pyStrip (pyTitle (pyStrip x)) = pyTitle (pyStrip x) := by
  have hprof : (pyStrip x).map pyIsSpace = (pyTitle (pyStrip x)).map pyIsSpace :=
    (map_pyIsSpace_pyTitleAux (pyStrip x) false).symm
  have hdrop : (pyTitle (pyStrip x)).dropWhile pyIsSpace = pyTitle (pyStrip x) :=
    dropWhile_eq_self_transfer pyIsSpace (pyStrip x) _ hprof (dropWhile_pyStrip x)
  have hr : pyRstrip (pyTitle (pyStrip x)) = pyTitle (pyStrip x) :=
    pyRstrip_eq_self_transfer (pyStrip x) _ hprof (pyRstrip_pyStrip x)
  show pyRstrip ((pyTitle (pyStrip x)).dropWhile pyIsSpace) = _
  rw [hdrop, hr]

theorem pyStrip_pyCapitalize_pyStrip (x : Str) :
    pyStrip (pyCapitalize (pyStrip x)) = pyCapitalize (pyStrip x) := by
  have hprof : (pyStrip x).map pyIsSpace = (pyCapitalize (pyStrip x)).map pyIsSpace :=
    (map_pyIsSpace_pyCapitalize (pyStrip x)).symm
  have hdrop : (pyCapitalize (pyStrip x)).dropWhile pyIsSpace = pyCapitalize (pyStrip x) :=
    dropWhile_eq_self_transfer pyIsSpace (pyStrip x) _ hprof (dropWhile_pyStrip x)
  have hr : pyRstrip (pyCapitalize (pyStrip x)) = pyCapitalize (pyStrip x) :=
    pyRstrip_eq_self_transfer (pyStrip x) _ hprof (pyRstrip_pyStrip x)
  show pyRstrip ((pyCapitalize (pyStrip x)).dropWhile pyIsSpace) = _
  rw [hdrop, hr]

theorem clean_clean (r : AttendanceRecord) : clean (clean r) = clean r := by
  unfold clean
  have hn : pyTitle (pyStrip (pyTitle (pyStrip r.student_name)))
      = pyTitle (pyStrip r.student_name) := by
    rw [pyStrip_pyTitle_pyStrip]
    exact pyTitleAux_idem _ false
  have hs : pyCapitalize (pyStrip (pyCapitalize (pyStrip r.status)))
      = pyCapitalize (pyStrip r.status) := by
    rw [pyStrip_pyCapitalize_pyStrip]
    exact pyCapitalize_pyCapitalize _
  simp [hn, hs, pyStrip_pyStrip]

theorem add_record_ok_spec (db : AttendanceDB) (rec : AttendanceRecord) (db1 : AttendanceDB)
    (h : add_record db rec = (Except.ok (), db1)) :
    ∃ rec1, validate rec = Except.ok rec1 ∧ db1.data = db.data ++ [rec1] ∧
      db1.file = some (encodeRecords (db.data ++ [rec1])) := by
  unfold add_record at h
  split at h
  · simp at h
  · next rec1 hv =>
    split at h
    · simp at h
    · have hdb : save_file { db with data := db.data ++ [rec1] } = db1 := (Prod.ext_iff.mp h).2
      cases hdb
      exact ⟨rec1, hv, rfl, rfl⟩

/-- C1: when `add_record` succeeds, the validated record is appended to the
in-memory sequence (the count grows by exactly one and the new record is
last) and the backing file is rewritten with the full updated sequence. -/
theorem add_record_appends_and_rewrites (db : AttendanceDB) (rec : AttendanceRecord)
    (db1 : AttendanceDB) (h : add_record db rec = (Except.ok (), db1)) :
    ∃ rec1, validate rec = Except.ok rec1 ∧ db1.data = db.data ++ [rec1] ∧
      db1.data.length = db.data.length + 1 ∧ db1.data.getLast? = some rec1 ∧
      db1.file = some (encodeRecords db1.data) := by
  obtain ⟨rec1, hv, hdata, hfile⟩ := add_record_ok_spec db rec db1 h
  refine ⟨rec1, hv, hdata, ?_, ?_, ?_⟩
  · rw [hdata]; simp
  · rw [hdata]; exact List.getLast?_concat _
  · rw [hdata, hfile]

/-- Witness for C1: adding `recJohnRaw` to the fresh store yields exactly
`dbJohn`. -/
theorem add_record_appends_and_rewrites_witness :
    ∃ rec1, validate recJohnRaw = Except.ok rec1 ∧ dbJohn.data = dbEmpty.data ++ [rec1] ∧
      dbJohn.data.length = dbEmpty.data.length + 1 ∧ dbJohn.data.getLast? = some rec1 ∧
      dbJohn.file = some (encodeRecords dbJohn.data) :=
  add_record_appends_and_rewrites dbEmpty recJohnRaw dbJohn rfl

/-- C4: whenever `add_record` reports an error (validation or duplicate),
the store state after the call, in-memory sequence and backing file alike,
is exactly the state before the call. -/
theorem add_record_failure_preserves_state (db : AttendanceDB) (rec : AttendanceRecord)
    (e : VError) (db2 : AttendanceDB) (h : add_record db rec = (Except.error e, db2)) :
    db2 = db := by
  unfold add_record at h
  split at h
  · exact (Prod.ext_iff.mp h).2.symm
  · split at h
    · exact (Prod.ext_iff.mp h).2.symm
    · simp at h

/-- Witness for C4: a failing add on the fresh store leaves it untouched. -/
theorem add_record_failure_preserves_state_witness :
    (add_record dbEmpty recBadDate).2 = dbEmpty :=
  add_record_failure_preserves_state dbEmpty recBadDate VError.invalidDate
    (add_record dbEmpty recBadDate).2 rfl

theorem decodeRecord_encodeRecord (r : AttendanceRecord) :
    decodeRecord (encodeRecord r) = some r := rfl

theorem decodeRecordList_encode (rs : List AttendanceRecord) :
    decodeRecordList (rs.map encodeRecord) = some rs := by
  induction rs with
  | nil => rfl
  | cons r rest ih =>
    show (match decodeRecord (encodeRecord r), decodeRecordList (rest.map encodeRecord) with
      | some r, some rs => some (r :: rs)
      | _, _ => none) = some (r :: rest)
    rw [decodeRecord_encodeRecord, ih]

/-- C7: saving the in-memory sequence and loading the resulting file back
returns the same records, fields and order preserved. -/
theorem save_then_load_roundtrip (db : AttendanceDB) :
    load_file ((save_file db).file) = db.data := by
  show load_file (some (encodeRecords db.data)) = db.data
  show (match decodeRecords (encodeRecords db.data) with
    | some rs => rs
    | none => []) = db.data
  have : decodeRecords (encodeRecords db.data) = some db.data := by
    show decodeRecordList (db.data.map encodeRecord) = some db.data
    exact decodeRecordList_encode db.data
  rw [this]

/-- C8: a backing file whose text is not valid JSON loads as the empty
record collection instead of an error (`none` is the model of any file
content on which `json.load` raises `JSONDecodeError`). -/
theorem load_malformed_empty : load_file none = [] := rfl

/-- C2: validation normalizes first and then checks date format, status
membership, absent-requires-remarks and name-non-empty in that fixed
order, reporting only the first failure; in particular an input with both
an invalid date and an empty name yields the invalid-date error. -/
theorem validate_checks_in_spec_order :
    (∀ r, validate r = specOrderedValidate r) ∧
    validate ⟨toL "", toL "not-a-date", toL "Present", toL ""⟩
      = Except.error VError.invalidDate := by
  constructor
  · intro r
    unfold validate specOrderedValidate
    cases hp : parseDate (clean r).date <;> simp [hp]
  · rfl

/-- C3 counterexample: after a successful add for `("john doe",
"2025-08-24")`, a second attempt with the same normalized name and date
but an invalid status fails with the invalid-status error, not the
duplicate error, because validation runs before the duplicate check. -/
theorem duplicate_claim_counterexample :
    add_record dbEmpty recJohnRaw = (Except.ok (), dbJohn) ∧
    validate recJohnRaw = Except.ok recJohn ∧
    pyLower (clean recBadStatus).student_name = pyLower recJohn.student_name ∧
    (clean recBadStatus).date = recJohn.date ∧
    (add_record dbJohn recBadStatus).1 = Except.error VError.invalidStatus ∧
    VError.invalidStatus ≠ VError.duplicateRecord :=
  ⟨rfl, rfl, rfl, rfl, rfl, by decide⟩

/-- C3 (amended): after a successful add, a second attempt with the same
normalized lower-cased name and the same normalized date fails with the
duplicate error whatever its status or remarks, provided the second
attempt itself passes validation; a second attempt that fails validation
reports that validation error instead. -/
theorem add_record_second_attempt_duplicate (db : AttendanceDB)
    (rec1 rec2 : AttendanceRecord) (db1 : AttendanceDB) (r1 r2 : AttendanceRecord)
    (h1 : add_record db rec1 = (Except.ok (), db1))
    (hv1 : validate rec1 = Except.ok r1)
    (hv2 : validate rec2 = Except.ok r2)
    (hname : pyLower r2.student_name = pyLower r1.student_name)
    (hdate : r2.date = r1.date) :
    (add_record db1 rec2).1 = Except.error VError.duplicateRecord := by
  obtain ⟨r1x, hv1x, hdata, _⟩ := add_record_ok_spec db rec1 db1 h1
  have hr1 : r1x = r1 := by
    rw [hv1] at hv1x
    injection hv1x with hx
    exact hx.symm
  subst hr1
  unfold add_record
  split
  · next e he =>
    rw [hv2] at he
    simp at he
  · next r2x hv2x =>
    have hr2 : r2x = r2 := by
      rw [hv2] at hv2x
      injection hv2x with hx
      exact hx.symm
    subst hr2
    have hany : (db1.data.any fun r =>
        decide (pyLower r.student_name = pyLower r2x.student_name) &&
          decide (r.date = r2x.date)) = true := by
      refine List.any_eq_true.mpr ⟨r1x, ?_, ?_⟩
      · rw [hdata]; simp
      · simp [hname, hdate]
    rw [if_pos hany]

/-- Witness for C3 (amended): a validating second attempt with different
casing, status and remarks is rejected as a duplicate. -/
theorem add_record_second_attempt_duplicate_witness :
    (add_record dbJohn recJohnAbsentRaw).1 = Except.error VError.duplicateRecord :=
  add_record_second_attempt_duplicate dbEmpty recJohnRaw recJohnAbsentRaw dbJohn
    recJohn recJohnAbsent rfl rfl rfl rfl rfl

theorem validate_eq_ok_iff (r r1 : AttendanceRecord) :
    validate r = Except.ok r1 ↔
      r1 = clean r ∧ (parseDate (clean r).date).isSome = true ∧
      (clean r).status ∈ VALID_STATUSES ∧
      ¬((clean r).status = toL "Absent" ∧ (clean r).remarks = []) ∧
      (clean r).student_name ≠ [] := by
  unfold validate
  cases hp : parseDate (clean r).date with
  | none => simp [hp]
  | some v =>
    simp only [hp, Option.isSome_some, true_and]
    split_ifs with h1 h2 h3 <;> simp_all [eq_comm]

/-- C9: when validation succeeds on a raw record, the produced record is a
fixed point of normalization, and validating it again succeeds with the
very same record. -/
theorem normalize_validate_idempotent (r r1 : AttendanceRecord)
    (h : validate r = Except.ok r1) :
    clean r1 = r1 ∧ validate r1 = Except.ok r1 := by
  obtain ⟨hr1, hp, hs, hm, hn⟩ := (validate_eq_ok_iff r r1).mp h
  have hclean : clean r1 = r1 := by
    rw [hr1]
    exact clean_clean r
  refine ⟨hclean, (validate_eq_ok_iff r1 r1).mpr ?_⟩
  rw [hclean, ← hr1] at *
  exact ⟨rfl, hp, hs, hm, hn⟩

/-- Witness for C9 at a concrete messy input. -/
theorem normalize_validate_idempotent_witness :
    clean recJohn = recJohn ∧ validate recJohn = Except.ok recJohn :=
  normalize_validate_idempotent recMessy recJohn rfl

theorem foldl_select_eq_filter (p : AttendanceRecord → Bool) (l : List AttendanceRecord) :
    ∀ acc, l.foldl (fun a x => if p x then a ++ [x] else a) acc = acc ++ l.filter p := by
  induction l with
  | nil => intro acc; simp
  | cons x xs ih =>
    intro acc
    rw [List.foldl_cons]
    by_cases hx : p x = true
    · rw [if_pos hx, ih, List.filter_cons, if_pos hx]
      simp
    · rw [if_neg hx, ih, List.filter_cons, if_neg hx]

theorem foldl_present_count (l : List AttendanceRecord) :
    ∀ n : Nat, l.foldl (fun n r => if r.status = toL "Present" then n + 1 else n) n
      = n + (l.filter recIsPresent).length := by
  induction l with
  | nil => intro n; simp
  | cons x xs ih =>
    intro n
    rw [List.foldl_cons]
    by_cases hx : x.status = toL "Present"
    · rw [if_pos hx, ih, List.filter_cons, if_pos (by simp [recIsPresent, hx])]
      simp only [List.length_cons]
      omega
    · rw [if_neg hx, ih, List.filter_cons, if_neg (by simp [recIsPresent, hx])]

theorem smpBody_eq (s : Str) (year month : Nat) (acc : List AttendanceRecord)
    (r : AttendanceRecord) :
    (if pyLower r.student_name ≠ s then acc
     else match parseDate r.date with
       | none => acc
       | some (y, m, _) => if y = year ∧ m = month then acc ++ [r] else acc)
    = if monthPred s year month r then acc ++ [r] else acc := by
  unfold monthPred
  by_cases hn : pyLower r.student_name = s
  · rw [if_neg (not_not_intro hn)]
    cases hp : parseDate r.date with
    | none => simp [hp, hn]
    | some v =>
      obtain ⟨y, m, d⟩ := v
      by_cases hym : y = year ∧ m = month
      · simp [hp, hn, hym]
      · simp [hp, hn, hym]
  · rw [if_pos hn]
    simp [hn]

theorem smp_eq (db : AttendanceDB) (q : Str) (year month : Nat) :
    student_monthly_percentage db q year month =
      ((db.data.filter (monthPred (pyLower (pyStrip q)) year month)).length,
       ((db.data.filter (monthPred (pyLower (pyStrip q)) year month)).filter recIsPresent).length,
       if (db.data.filter (monthPred (pyLower (pyStrip q)) year month)).length ≠ 0 then
         round2
           ((((db.data.filter (monthPred (pyLower (pyStrip q)) year month)).filter
                recIsPresent).length : ℚ)
             / ((db.data.filter (monthPred (pyLower (pyStrip q)) year month)).length : ℚ) * 100)
       else 0) := by
  have hfun : (fun (acc : List AttendanceRecord) (r : AttendanceRecord) =>
      if pyLower r.student_name ≠ pyLower (pyStrip q) then acc
      else match parseDate r.date with
        | none => acc
        | some (y, m, _) => if y = year ∧ m = month then acc ++ [r] else acc)
      = fun acc r => if monthPred (pyLower (pyStrip q)) year month r then acc ++ [r] else acc := by
    funext acc r
    exact smpBody_eq _ _ _ _ _
  simp only [student_monthly_percentage]
  rw [hfun, foldl_select_eq_filter, foldl_present_count]
  simp

theorem roundHalfEven_zero : roundHalfEven 0 = 0 := by
  unfold roundHalfEven
  norm_num

theorem round2_zero : round2 0 = 0 := by
  unfold round2
  norm_num [roundHalfEven_zero]

/-- C5: the monthly report selects the records whose lowered stored name
equals the stripped-and-lowered query and whose parsable date lies in the
given year and month (unparsable dates silently skipped), returns their
count, the count of exact `"Present"` entries among them, and the rounded
percentage guarded by the zero-total test; with zero matching records it
returns `(0, 0, 0)` and the division is never reached. The percentage is
stated in the exact rational idealization of the float arithmetic. -/
theorem monthly_percentage_spec (db : AttendanceDB) (q : Str) (year month : Nat) :
    (student_monthly_percentage db q year month =
      ((db.data.filter (monthPred (pyLower (pyStrip q)) year month)).length,
       ((db.data.filter (monthPred (pyLower (pyStrip q)) year month)).filter recIsPresent).length,
       if (db.data.filter (monthPred (pyLower (pyStrip q)) year month)).length ≠ 0 then
         round2
           ((((db.data.filter (monthPred (pyLower (pyStrip q)) year month)).filter
                recIsPresent).length : ℚ)
             / ((db.data.filter (monthPred (pyLower (pyStrip q)) year month)).length : ℚ) * 100)
       else 0)) ∧
    (db.data.filter (monthPred (pyLower (pyStrip q)) year month) = [] →
      student_monthly_percentage db q year month = (0, 0, 0)) := by
  refine ⟨smp_eq db q year month, fun h0 => ?_⟩
  rw [smp_eq db q year month, h0]
  simp

/-- Witness for C5: an empty store reports `(0, 0, 0)`. -/
theorem monthly_percentage_spec_witness :
    student_monthly_percentage dbEmpty (toL "Nobody") 2025 1 = (0, 0, 0) :=
  (monthly_percentage_spec dbEmpty (toL "Nobody") 2025 1).2 rfl

/-- C10: the monthly report counts a selected record as present only when
its stored status is the exact string `"Present"`; a record whose status
differs in case (such as `"present"` loaded from a hand-edited file, never
revalidated) still counts toward the total but never toward the present
count, as the concrete store `dbLower` shows. -/
theorem present_count_case_sensitive :
    (∀ db q year month,
      (student_monthly_percentage db q year month).1 =
        (db.data.filter (monthPred (pyLower (pyStrip q)) year month)).length ∧
      (student_monthly_percentage db q year month).2.1 =
        ((db.data.filter (monthPred (pyLower (pyStrip q)) year month)).filter
          recIsPresent).length) ∧
    student_monthly_percentage dbLower (toL "John Doe") 2025 8 = (1, 0, 0) := by
  constructor
  · intro db q year month
    rw [smp_eq db q year month]
    exact ⟨rfl, rfl⟩
  · rw [smp_eq dbLower (toL "John Doe") 2025 8]
    show ((1 : Nat), (0 : Nat),
      if (1 : Nat) ≠ 0 then round2 (((0 : Nat) : ℚ) / ((1 : Nat) : ℚ) * 100) else 0) = (1, 0, 0)
    norm_num [round2_zero]

theorem guard_filter (q : Option Str) (p : Str → AttendanceRecord → Bool)
    (l : List AttendanceRecord) :
    (match q with
     | none => l
     | some s => if s = [] then l else l.filter (fun r => p s r))
    = l.filter (fun r =>
        match q with | none => true | some s => if s = [] then true else p s r) := by
  cases q with
  | none => simp
  | some s =>
    by_cases hs : s = []
    · simp [hs]
    · simp [hs]

/-- C6 (amended): `list_records` returns exactly the records satisfying
the conjunction of the supplied filters, in insertion order: the
studentName filter matches case-insensitively against the trimmed supplied
name, the date bounds are inclusive lexicographic comparisons, and a
filter supplied as the empty string is treated as absent (Python
truthiness); being a pure function of the data, the call leaves the store
unchanged. -/
theorem list_records_filter_conjunction (db : AttendanceDB) (n f t : Option Str) :
    list_records db n f t =
      db.data.filter (fun r => nameMatches n r && fromMatches f r && toMatches t r) := by
  simp only [list_records]
  rw [guard_filter n (fun s r => decide (pyLower r.student_name = pyLower (pyStrip s)))]
  rw [guard_filter f (fun s r => strLE s r.date)]
  rw [guard_filter t (fun s r => strLE r.date s)]
  rw [List.filter_filter, List.filter_filter]
  refine List.filter_congr ?_
  intro x _
  unfold nameMatches fromMatches toMatches
  cases n <;> cases f <;> cases t <;>
    simp [Bool.and_comm, Bool.and_assoc, Bool.and_left_comm]

/-- C6 counterexample: with the single stored record named `"John Doe"`,
the supplied name filter `"John Doe "` (trailing space) still returns the
record, although the record does not match the supplied value by a
case-insensitive exact comparison: the code trims the query first. -/
theorem list_records_exact_match_counterexample :
    list_records dbJohn (some (toL "John Doe ")) none none = [recJohn] ∧
    specNameExact recJohn (toL "John Doe ") = false :=
  ⟨rfl, rfl⟩
